import Mathlib

/-!
Verification development for the Persona music recommendation core
(`config.py`, `data_manager.py`, `music_recommender.py`).

The Python source is shallowly embedded: numeric values (numpy float64)
are modelled by `ℚ`; the numpy global Mersenne Twister stream is modelled
by an explicit `RngState` threaded through the functions that consume
randomness (the embedding of a function that calls `np.random.seed`
discards the incoming state, exactly as the source overwrites the global
stream).  Library routines that live outside the repository (numpy,
scikit-learn, joblib) are modelled by deterministic executable functions
whose field footprint and data flow match the library contracts used by
the source; the theorems below depend only on those aspects, never on the
numeric internals of the libraries.
-/

/-! ## Configuration (`config.py`) -/

/-- Embedding of `config.RANDOM_STATE` (line 24). -/
def RANDOM_STATE : Nat := 42

/-- Embedding of `config.AUDIO_FEATURES` (lines 27-39): the fixed ordered
feature-name list. -/
def AUDIO_FEATURES : List String :=
  ["danceability", "energy", "key", "loudness", "mode", "speechiness",
   "acousticness", "instrumentalness", "liveness", "valence", "tempo"]

/-! ## Model of the numpy global pseudo-random stream

The source uses `np.random.seed`, `np.random.choice(_, _, replace=False)`,
`np.random.shuffle` and `np.random.random`.  The Mersenne Twister stream
is abstracted to a linear congruential generator over `Nat`; every theorem
below depends only on the stream being a deterministic function of the
state, on draws without replacement being distinct, and on a full-length
draw being a permutation. -/

/-- State of the numpy global random generator (abstracted). -/
abbrev RngState := Nat

/-- Model of `np.random.seed(n)`: the state becomes a function of `n` alone. -/
def npRandomSeed (n : Nat) : RngState := n

/-- One draw from the stream: a raw number together with the next state. -/
def rngNext (g : RngState) : Nat × RngState :=
  let g1 := (g * 1103515245 + 12345) % 2147483648
  (g1 / 65536, g1)

/-- Model of drawing `fuel` elements of `avail` without replacement
(`d` is only a fallback value for the index access, never produced when
the index is in range).  A full-length draw models `np.random.shuffle`;
`np.random.choice(n, k, replace=False)` is a full-length draw over the
index range followed by a truncation, matching numpy's
`permutation(n)[:k]` implementation. -/
def drawAux (d : α) : RngState → List α → Nat → List α × RngState
  | g, _, 0 => ([], g)
  | g, avail, Nat.succ fuel =>
    if avail.length = 0 then ([], g)
    else
      let j := (rngNext g).1 % avail.length
      let rest := drawAux d (rngNext g).2 (avail.eraseIdx j) fuel
      (avail.getD j d :: rest.1, rest.2)

/-- Model of `np.random.choice(n, k, replace=False)` on the numpy global
stream: a permutation of `range n` truncated to its first `k` entries. -/
def npChoiceNoReplace (g : RngState) (n k : Nat) : List Nat × RngState :=
  let (perm, g1) := drawAux 0 g (List.range n) n
  (perm.take k, g1)

/-- Model of `np.random.shuffle` on a list of song identifiers. -/
def npShuffle (g : RngState) (l : List String) : List String × RngState :=
  drawAux "" g l l.length

/-- Model of one `np.random.random()` draw as a rational in `[0, 1)`. -/
def npRandomFloat (g : RngState) : ℚ × RngState :=
  let (r, g1) := rngNext g
  (((r % 1000000 : Nat) : ℚ) / 1000000, g1)

/-! ## Data model -/

/-- A song record as consumed by the core: only the presence and content of
the `audio_features` attribute map matters to the embedded code; display
metadata is never read by it. -/
structure Song where
  audio_features : Option (List (String × ℚ))
deriving DecidableEq

/-- A candidate pool: the `songs_data` dict, id to record, in iteration
order. -/
abbrev SongPool := List (String × Song)

/-- A feedback CSV row as written by `DataManager.save_feedback`:
identifier, binary label, timestamp, and one column per audio feature. -/
structure FeedbackRecord where
  song_id : String
  feedback : Nat
  timestamp : String
  features : List (String × ℚ)
deriving DecidableEq

/-! ## Feature codec (`data_manager.py`) -/

/-- Embedding of `DataManager.prepare_features_for_ml` (lines 101-106):
one row per `AUDIO_FEATURES` entry with `audio_features.get(feature, 0)`,
reshaped to a one-row matrix. -/
def prepareFeaturesForML (audio_features : List (String × ℚ)) : List (List ℚ) :=
  [AUDIO_FEATURES.map (fun f => (audio_features.lookup f).getD 0)]

/-- The songs of a pool that carry an `audio_features` map, in pool order,
paired with that map.  This is the comprehension at
`music_recommender.py` lines 127-130 and the loop filter at
`data_manager.py` line 114. -/
def songsWithFeatures (songsData : SongPool) : List (String × List (String × ℚ)) :=
  songsData.filterMap (fun p => p.2.audio_features.map (fun af => (p.1, af)))

/-- Embedding of `DataManager.get_song_features_batch` (lines 108-121):
ids and feature rows of the songs that carry an `audio_features` map, in
pool order. -/
def getSongFeaturesBatch (songsData : SongPool) : List String × List (List ℚ) :=
  let swf := songsWithFeatures songsData
  (swf.map Prod.fst,
   swf.map (fun p => AUDIO_FEATURES.map (fun f => (p.2.lookup f).getD 0)))

/-! ## Feedback store (`data_manager.py`) -/

/-- Outcome of the underlying CSV write (`df.to_csv`, line 95): either the
write succeeds or the file system raises an I/O error. -/
inductive WriteOutcome
  | ok
  | ioError
deriving DecidableEq

/-- Observable result of `DataManager.save_feedback`: the resulting stored
records, whether an exception escaped to the caller, and the log lines
emitted. -/
structure SaveFeedbackResult where
  records : List FeedbackRecord
  raisedToCaller : Bool
  logs : List String
deriving DecidableEq

/-- Embedding of `DataManager.save_feedback` (lines 75-99).  The body is
wrapped in `try/except Exception` whose handler only calls
`logger.error`, so no exception ever escapes; on an I/O failure of the
write the stored records are unchanged. -/
def saveFeedback (existing : List FeedbackRecord) (song_id : String)
    (feedback : Nat) (audio_features : List (String × ℚ)) (now : String)
    (w : WriteOutcome) : SaveFeedbackResult :=
  let newRecord : FeedbackRecord :=
    { song_id := song_id, feedback := feedback, timestamp := now,
      features := AUDIO_FEATURES.map (fun f => (f, (audio_features.lookup f).getD 0)) }
  match w with
  | WriteOutcome.ok =>
    { records := existing ++ [newRecord], raisedToCaller := false,
      logs := ["Saved feedback for song " ++ song_id] }
  | WriteOutcome.ioError =>
    { records := existing, raisedToCaller := false,
      logs := ["Error saving feedback"] }

/-! ## Normalizer model (`sklearn.preprocessing.StandardScaler`)

StandardScaler is external library code.  It is modelled by its parameter
footprint: `fit` stores a per-column mean and scale computed from the
training matrix, `transform` is `(x - mean) / scale` per position.  The
real square root is approximated by a deterministic rational function;
the theorems below depend only on `scalerFit` being a function of its
matrix argument and on `scalerTransform` reading but never writing the
parameters. -/

/-- Deterministic rational stand-in for the real square root used inside
the scale computation (integer square roots of numerator and
denominator). -/
def ratSqrt (q : ℚ) : ℚ := ((Nat.sqrt q.num.toNat : ℚ)) / ((Nat.sqrt q.den : ℚ))

/-- Parameters stored by a fitted StandardScaler. -/
structure ScalerParams where
  mean : List ℚ
  scale : List ℚ
deriving DecidableEq

/-- Column mean of a feature matrix. -/
def colMean (X : List (List ℚ)) (j : Nat) : ℚ :=
  ((X.map (fun r => r.getD j 0)).sum) / (X.length : ℚ)

/-- Column variance of a feature matrix. -/
def colVar (X : List (List ℚ)) (j : Nat) : ℚ :=
  ((X.map (fun r => (r.getD j 0 - colMean X j) ^ 2)).sum) / (X.length : ℚ)

/-- Model of `StandardScaler.fit` on an `n × 11` matrix: per-column mean
and scale, a zero-variance column getting scale 1 as in sklearn. -/
def scalerFit (X : List (List ℚ)) : ScalerParams :=
  { mean := (List.range AUDIO_FEATURES.length).map (fun j => colMean X j),
    scale := (List.range AUDIO_FEATURES.length).map (fun j =>
      let v := colVar X j
      if v = 0 then 1 else ratSqrt v) }

/-- Model of `StandardScaler.transform` on one row. -/
def scalerTransform (sc : ScalerParams) (row : List ℚ) : List ℚ :=
  (List.range row.length).map (fun j => (row.getD j 0 - sc.mean.getD j 0) / sc.scale.getD j 1)

/-! ## Classifier model (`sklearn.linear_model.SGDClassifier`)

SGDClassifier is external library code.  It is modelled by a linear model
(weights and intercept) trained by deterministic gradient steps; the
epoch schedule, adaptive learning rate, tolerance stopping and the
`random_state`-seeded data shuffling of the library are abstracted into a
single deterministic pass, which preserves the two facts the source
relies on: training is a deterministic function of its inputs and the
constructor seed, and `partial_fit` performs one incremental step.  The
logistic link of `predict_proba` is modelled by a strictly monotone
rational squashing function. -/

/-- The classifier object as configured in
`MusicRecommender._initialize_model` (lines 41-48). -/
structure SGDClassifierModel where
  loss : String
  random_state : Nat
  eta0 : ℚ
  coef : List ℚ
  intercept : ℚ
deriving DecidableEq

/-- Rational stand-in for the logistic sigmoid: strictly monotone, with
values in `(0, 1)`. -/
def sigmoidQ (z : ℚ) : ℚ := (1 + z / (1 + |z|)) / 2

/-- Dot product of weight and feature rows. -/
def dotQ (w x : List ℚ) : ℚ := ((w.zip x).map (fun p => p.1 * p.2)).sum

/-- Model of `SGDClassifier.decision_function` on one row: the raw linear
margin. -/
def decisionFunction (m : SGDClassifierModel) (x : List ℚ) : ℚ :=
  dotQ m.coef x + m.intercept

/-- Model of the `hasattr(self.model, 'predict_proba')` test at
`music_recommender.py` line 198: sklearn exposes `predict_proba` on
SGDClassifier exactly for the log-loss and modified-Huber losses. -/
def hasPredictProbaAttr (m : SGDClassifierModel) : Bool :=
  m.loss == "log_loss" || m.loss == "modified_huber"

/-- Model of the positive-class column of `SGDClassifier.predict_proba`
on one row: the squashed decision margin. -/
def predictProbaPos (m : SGDClassifierModel) (x : List ℚ) : ℚ :=
  sigmoidQ (decisionFunction m x)

/-- One labelled gradient step on (weights, intercept). -/
def sgdStep (eta : ℚ) (wb : List ℚ × ℚ) (xy : List ℚ × Nat) : List ℚ × ℚ :=
  let z := dotQ wb.1 xy.1 + wb.2
  let gfac := sigmoidQ z - (xy.2 : ℚ)
  ((wb.1.zip xy.1).map (fun p => p.1 - eta * gfac * p.2), wb.2 - eta * gfac)

/-- One pass of gradient steps over a labelled sample list. -/
def sgdRunPass (eta : ℚ) (wb : List ℚ × ℚ) (samples : List (List ℚ × Nat)) :
    List ℚ × ℚ :=
  samples.foldl (sgdStep eta) wb

/-- Model of `SGDClassifier.fit`: sklearn raises `ValueError` when the
label vector holds fewer than two distinct classes (the error is raised
during label validation, before the gradient loop runs, so the stored
parameters are not updated — modelled as `none`); otherwise parameters
are re-initialized to zero (no warm start in the source) and trained by
a deterministic pass over the samples. -/
def sgdFit (m : SGDClassifierModel) (X : List (List ℚ)) (y : List Nat) :
    Option SGDClassifierModel :=
  if y.dedup.length < 2 then none
  else
    let w0 := AUDIO_FEATURES.map (fun _ => (0 : ℚ))
    let wb := sgdRunPass m.eta0 (w0, 0) (X.zip y)
    some { m with coef := wb.1, intercept := wb.2 }

/-- Model of `SGDClassifier.partial_fit`: one incremental pass starting
from the current parameters. -/
def sgdIncrementalFit (m : SGDClassifierModel) (X : List (List ℚ)) (y : List Nat) :
    SGDClassifierModel :=
  let wb := sgdRunPass m.eta0 (m.coef, m.intercept) (X.zip y)
  { m with coef := wb.1, intercept := wb.2 }

/-! ## Recommender state (`music_recommender.py`) -/

/-- The mutable state of a `MusicRecommender`: classifier object, scaler
(`none` models a constructed-but-unfitted `StandardScaler`, whose
`transform` raises), and the `is_trained` flag. -/
structure RecState where
  model : SGDClassifierModel
  scaler : Option ScalerParams
  is_trained : Bool
deriving DecidableEq

/-- The classifier constructed at `music_recommender.py` lines 41-48. -/
def freshSGDClassifierModel : SGDClassifierModel :=
  { loss := "log_loss", random_state := RANDOM_STATE, eta0 := 1 / 100,
    coef := [], intercept := 0 }

/-- The state built by `MusicRecommender._initialize_model` when no model
file exists (lines 40-50): new classifier, unfitted scaler, untrained. -/
def freshRecState : RecState :=
  { model := freshSGDClassifierModel, scaler := none, is_trained := false }

/-! ## Model persistence (`music_recommender.py` lines 56-80)

The joblib blob is a Python dict with keys `model`, `scaler` and
`is_trained`; joblib/pickle round-trips the stored objects exactly.  The
dict is embedded as an association list over a tagged value type. -/

/-- A value stored in the persisted dict. -/
inductive BlobVal
  | clf : SGDClassifierModel → BlobVal
  | scl : Option ScalerParams → BlobVal
  | flag : Bool → BlobVal
deriving DecidableEq

/-- Embedding of `MusicRecommender._save_model` (lines 69-80): the dict
written through `joblib.dump`. -/
def saveModel (st : RecState) : List (String × BlobVal) :=
  [("model", BlobVal.clf st.model), ("scaler", BlobVal.scl st.scaler),
   ("is_trained", BlobVal.flag st.is_trained)]

/-- Embedding of `MusicRecommender._load_model` (lines 56-67): read the
`model` and `scaler` keys (a `KeyError` or malformed blob is caught and
falls back to a fresh model via `_initialize_model`), and read
`is_trained` through `dict.get` with default `False`. -/
def loadModel (blob : List (String × BlobVal)) : RecState :=
  match blob.lookup "model", blob.lookup "scaler" with
  | some (BlobVal.clf m), some (BlobVal.scl sc) =>
    { model := m, scaler := sc,
      is_trained :=
        match blob.lookup "is_trained" with
        | some (BlobVal.flag b) => b
        | _ => false }
  | _, _ => freshRecState

/-! ## Training and prediction (`music_recommender.py`) -/

/-- Embedding of `MusicRecommender._prepare_training_data` (lines 82-93):
feature matrix and label vector read back from the stored feedback
records (empty matrix when there is no feedback). -/
def prepareTrainingData (feedback : List FeedbackRecord) :
    List (List ℚ) × List Nat :=
  if feedback.isEmpty then ([], [])
  else
    (feedback.map (fun r => AUDIO_FEATURES.map (fun f => (r.features.lookup f).getD 0)),
     feedback.map (fun r => r.feedback))

/-- The clamping at `music_recommender.py` lines 132-133: `sample_size`
is reduced to the number of featured songs when the pool is smaller. -/
def syntheticSampleSize (songsData : SongPool) (sampleSize : Nat) : Nat :=
  if (songsWithFeatures songsData).length < sampleSize then
    (songsWithFeatures songsData).length
  else sampleSize

/-- The `selected_songs` array at `music_recommender.py` lines 136-137:
`np.random.seed(RANDOM_STATE)` followed by
`np.random.choice(len(songs_with_features), sample_size, replace=False)`.
The seeding makes the selection independent of the ambient stream
state. -/
def syntheticSelection (songsData : SongPool) (sampleSize : Nat) :
    List Nat × RngState :=
  let g := npRandomSeed RANDOM_STATE
  npChoiceNoReplace g (songsWithFeatures songsData).length
    (syntheticSampleSize songsData sampleSize)

/-- Embedding of `MusicRecommender._create_synthetic_training_data`
(lines 121-147).  The incoming stream state `_g` is discarded because the
source reseeds the global generator; the returned state is the stream
state after the selection.  The label at enumeration position `i` is
`1 if i < sample_size // 2 else 0` (line 145) with `sample_size` already
clamped. -/
def createSyntheticTrainingData (songsData : SongPool) (sampleSize : Nat)
    (_g : RngState) : (List (List ℚ) × List Nat) × RngState :=
  let swf := songsWithFeatures songsData
  let ss := syntheticSampleSize songsData sampleSize
  let sel := syntheticSelection songsData sampleSize
  let features := sel.1.map (fun idx =>
    AUDIO_FEATURES.map (fun f => (((swf.getD idx ("", [])).2).lookup f).getD 0))
  let labelRows := (List.range sel.1.length).map (fun i => if i < ss / 2 then 1 else 0)
  ((features, labelRows), sel.2)

/-- Embedding of `MusicRecommender.train_initial_model` (lines 95-119):
use stored feedback if any, otherwise the synthetic set; when a
non-empty training set results, fit the scaler on it, transform, fit the
classifier, and set `is_trained`; otherwise only warn.  When the
classifier fit raises (single-class labels), the `except` handler at
lines 118-119 only logs the error: by then `self.scaler.fit` has already
run, so the resulting state keeps the freshly fit scaler while the
classifier object and the `is_trained` flag are unchanged.  The
`_save_model` call is a persistence side effect modelled separately by
`saveModel`. -/
def trainInitialModel (st : RecState) (feedback : List FeedbackRecord)
    (songsData : SongPool) (sampleSize : Nat) (g : RngState) :
    RecState × RngState :=
  let prepared := prepareTrainingData feedback
  let step :=
    if prepared.1.length = 0 then createSyntheticTrainingData songsData sampleSize g
    else (prepared, g)
  let X := step.1.1
  let y := step.1.2
  if 0 < X.length then
    let sc := scalerFit X
    let Xs := X.map (scalerTransform sc)
    match sgdFit st.model Xs y with
    | some m => ({ st with model := m, scaler := some sc, is_trained := true }, step.2)
    | none => ({ st with scaler := some sc }, step.2)
  else (st, step.2)

/-- Embedding of `MusicRecommender.update_model` (lines 149-168),
returning the new state and the log lines.  On an untrained model the
method warns and returns before touching any state; with an unfitted
scaler the `transform` call raises and the `except` handler logs the
error, again leaving the state unchanged; otherwise the classifier takes
one incremental step on the single labelled example and nothing else in
the state changes. -/
def updateModel (st : RecState) (songFeatures : List (List ℚ)) (feedback : Nat) :
    RecState × List String :=
  if st.is_trained = false then
    (st, ["Model not trained yet, cannot update"])
  else
    match st.scaler with
    | none => (st, ["Error updating model"])
    | some sc =>
      let scaled := songFeatures.map (scalerTransform sc)
      let m := sgdIncrementalFit st.model scaled [feedback]
      ({ st with model := m }, ["Model updated with feedback"])

/-- The random-score comprehension at `music_recommender.py` line 226:
one `np.random.random()` draw per song identifier, in order. -/
def randScores : RngState → List String → List (String × ℚ) × RngState
  | g, [] => ([], g)
  | g, sid :: rest =>
    let out := randScores (npRandomFloat g).2 rest
    ((sid, (npRandomFloat g).1) :: out.1, out.2)

/-- Embedding of `MusicRecommender._get_random_recommendations`
(lines 217-226): shuffle the non-excluded identifiers, keep the first
10, attach one random score each. -/
def getRandomRecommendations (songsData : SongPool)
    (excludeIds : Option (List String)) (g : RngState) :
    List (String × ℚ) × RngState :=
  let excl := excludeIds.getD []
  let available := (songsData.map Prod.fst).filter (fun sid => !excl.contains sid)
  let shuffled := npShuffle g available
  randScores shuffled.2 (shuffled.1.take 10)

/-- Insertion of one scored pair into a descending list, passing over
strictly greater scores only, so that a pair never overtakes an
equal-scored pair that was inserted after it. -/
def insertDesc (p : String × ℚ) : List (String × ℚ) → List (String × ℚ)
  | [] => [p]
  | q :: qs => if p.2 < q.2 then q :: insertDesc p qs else p :: q :: qs

/-- Model of `recommendations.sort(key=lambda x: x[1], reverse=True)`
(`music_recommender.py` line 208): Python list sort is stable, and with
`reverse=True` it orders by descending key while keeping equal-keyed
elements in their original relative order. -/
def sortDesc (l : List (String × ℚ)) : List (String × ℚ) :=
  l.foldr insertDesc []

/-- The filtering at `music_recommender.py` lines 186-192: indices of the
batch whose identifier is not excluded, then the ids and feature rows at
those indices. -/
def filteredCandidates (songsData : SongPool) (excl : List String) :
    List String × List (List ℚ) :=
  let songIds := (getSongFeaturesBatch songsData).1
  let featM := (getSongFeaturesBatch songsData).2
  let fIdx := (List.range songIds.length).filter
    (fun i => !excl.contains (songIds.getD i ""))
  (fIdx.map (fun i => songIds.getD i ""),
   fIdx.map (fun i => featM.getD i []))

/-- The scoring at `music_recommender.py` lines 194-204: transform the
rows with the fitted scaler, then the positive-class probability when
the classifier exposes `predict_proba`, the raw decision margin
otherwise. -/
def modelScores (m : SGDClassifierModel) (sc : ScalerParams)
    (rows : List (List ℚ)) : List ℚ :=
  let scaled := rows.map (scalerTransform sc)
  if hasPredictProbaAttr m then scaled.map (fun x => predictProbaPos m x)
  else scaled.map (fun x => decisionFunction m x)

/-- Embedding of `MusicRecommender.predict_preferences` (lines 170-215):
untrained models fall back to random recommendations; otherwise the
batch is extracted, the excluded identifiers are dropped, empty
candidate sets yield an empty list, scoring with an unfitted scaler
raises and the `except` handler falls back to random recommendations,
and otherwise the scored pairs are sorted descending by score. -/
def predictPreferences (st : RecState) (songsData : SongPool)
    (excludeIds : Option (List String)) (g : RngState) :
    List (String × ℚ) × RngState :=
  if st.is_trained = false then getRandomRecommendations songsData excludeIds g
  else
    let excl := excludeIds.getD []
    if (getSongFeaturesBatch songsData).2.length = 0 then ([], g)
    else if (filteredCandidates songsData excl).1.length = 0 then ([], g)
    else
      match st.scaler with
      | none => getRandomRecommendations songsData excludeIds g
      | some sc =>
        (sortDesc ((filteredCandidates songsData excl).1.zip
          (modelScores st.model sc (filteredCandidates songsData excl).2)), g)

/-! ## Helper lemmas on the random draw model -/

/-- Pulling the element at a valid index to the front of a list is a
permutation. -/
lemma getD_eraseIdx_perm (d : α) :
    ∀ (l : List α) (j : Nat), j < l.length →
      List.Perm (l.getD j d :: l.eraseIdx j) l
  | [], _, h => absurd h (by simp)
  | _ :: _, 0, _ => by simp
  | a :: l, j + 1, h => by
    have ih := getD_eraseIdx_perm d l j (by simpa using h)
    simp only [List.getD_cons_succ, List.eraseIdx_cons_succ]
    exact (List.Perm.swap a (l.getD j d) (l.eraseIdx j)).trans (ih.cons a)

/-- A draw without replacement returns `min fuel length` elements. -/
lemma drawAux_length (d : α) :
    ∀ (fuel : Nat) (g : RngState) (l : List α),
      (drawAux d g l fuel).1.length = min fuel l.length
  | 0, g, l => by simp [drawAux]
  | fuel + 1, g, l => by
    by_cases h : l.length = 0
    · simp [drawAux, h]
    · have hj : (rngNext g).1 % l.length < l.length := Nat.mod_lt _ (Nat.pos_of_ne_zero h)
      have ih := drawAux_length d fuel (rngNext g).2
        (l.eraseIdx ((rngNext g).1 % l.length))
      simp only [drawAux, if_neg h, List.length_cons, ih, List.length_eraseIdx, hj,
        if_pos hj]
      obtain ⟨n, hn⟩ : ∃ n, l.length = n + 1 :=
        ⟨l.length - 1, (Nat.succ_pred_eq_of_pos (Nat.pos_of_ne_zero h)).symm⟩
      simp [hn]
      omega

/-- A full-length draw without replacement is a permutation of its input. -/
lemma drawAux_perm (d : α) :
    ∀ (fuel : Nat) (g : RngState) (l : List α), l.length ≤ fuel →
      List.Perm (drawAux d g l fuel).1 l
  | 0, g, l, h => by
    have : l = [] := List.length_eq_zero.mp (Nat.le_zero.mp h)
    simp [drawAux, this]
  | fuel + 1, g, l, h => by
    by_cases h0 : l.length = 0
    · simp [drawAux, h0, List.length_eq_zero.mp h0]
    · have hj : (rngNext g).1 % l.length < l.length := Nat.mod_lt _ (Nat.pos_of_ne_zero h0)
      have hlen : (l.eraseIdx ((rngNext g).1 % l.length)).length ≤ fuel := by
        simp only [List.length_eraseIdx, if_pos hj]
        omega
      have ih := drawAux_perm d fuel (rngNext g).2
        (l.eraseIdx ((rngNext g).1 % l.length)) hlen
      simp only [drawAux, if_neg h0]
      exact (ih.cons _).trans (getD_eraseIdx_perm d l _ hj)

/-- The shuffle model permutes its input. -/
lemma npShuffle_perm (g : RngState) (l : List String) :
    List.Perm (npShuffle g l).1 l :=
  drawAux_perm "" l.length g l (Nat.le_refl _)

/-- The choice model returns exactly `k` indices when `k` is within range. -/
lemma npChoiceNoReplace_length (g : RngState) (n k : Nat) (h : k ≤ n) :
    (npChoiceNoReplace g n k).1.length = k := by
  have hp := drawAux_length 0 n g (List.range n)
  simp only [npChoiceNoReplace, List.length_take, hp, List.length_range, Nat.min_self]
  omega

/-- The choice model returns distinct indices. -/
lemma npChoiceNoReplace_nodup (g : RngState) (n k : Nat) :
    (npChoiceNoReplace g n k).1.Nodup := by
  have hp : List.Perm (drawAux 0 g (List.range n) n).1 (List.range n) :=
    drawAux_perm 0 n g (List.range n) (by simp)
  have hnd : (drawAux 0 g (List.range n) n).1.Nodup :=
    (hp.nodup_iff).mpr (List.nodup_range n)
  exact hnd.sublist (List.take_sublist k _)

/-- The choice model returns indices below the population size. -/
lemma npChoiceNoReplace_mem (g : RngState) (n k i : Nat)
    (h : i ∈ (npChoiceNoReplace g n k).1) : i < n := by
  have hp : List.Perm (drawAux 0 g (List.range n) n).1 (List.range n) :=
    drawAux_perm 0 n g (List.range n) (by simp)
  have : i ∈ (drawAux 0 g (List.range n) n).1 :=
    (List.take_sublist k _).mem h
  exact List.mem_range.mp (hp.mem_iff.mp this)

/-- Attaching random scores preserves the identifiers, in order. -/
lemma randScores_map_fst :
    ∀ (g : RngState) (l : List String), ((randScores g l).1.map Prod.fst) = l
  | _, [] => by simp [randScores]
  | g, sid :: rest => by
    simp [randScores, randScores_map_fst (npRandomFloat g).2 rest]

/-! ## Helper lemmas on the stable descending sort -/

/-- Descending order on scored pairs. -/
def scoreGE (a b : String × ℚ) : Prop := b.2 ≤ a.2

/-- Inserting a pair is a permutation of consing it. -/
lemma insertDesc_perm (p : String × ℚ) :
    ∀ l : List (String × ℚ), List.Perm (insertDesc p l) (p :: l)
  | [] => by simp [insertDesc]
  | q :: qs => by
    by_cases h : p.2 < q.2
    · simp only [insertDesc, if_pos h]
      exact ((insertDesc_perm p qs).cons q).trans (List.Perm.swap p q qs)
    · simp [insertDesc, if_neg h]

/-- The sort is a permutation of its input. -/
lemma sortDesc_perm : ∀ l : List (String × ℚ), List.Perm (sortDesc l) l
  | [] => by simp [sortDesc]
  | p :: l => by
    have : sortDesc (p :: l) = insertDesc p (sortDesc l) := rfl
    rw [this]
    exact (insertDesc_perm p (sortDesc l)).trans ((sortDesc_perm l).cons p)

/-- Inserting into a descending list keeps it descending. -/
lemma insertDesc_sorted (p : String × ℚ) :
    ∀ l : List (String × ℚ), l.Pairwise scoreGE →
      (insertDesc p l).Pairwise scoreGE
  | [], _ => by simp [insertDesc, scoreGE]
  | q :: qs, h => by
    rcases List.pairwise_cons.mp h with ⟨hq, hqs⟩
    by_cases hpq : p.2 < q.2
    · simp only [insertDesc, if_pos hpq]
      refine List.pairwise_cons.mpr ⟨?_, insertDesc_sorted p qs hqs⟩
      intro b hb
      have hb2 : b ∈ p :: qs := (insertDesc_perm p qs).mem_iff.mp hb
      rcases List.mem_cons.mp hb2 with hb2 | hb2
      · subst hb2; exact le_of_lt hpq
      · exact hq b hb2
    · simp only [insertDesc, if_neg hpq]
      have hpq' : q.2 ≤ p.2 := le_of_not_lt hpq
      refine List.pairwise_cons.mpr ⟨?_, h⟩
      intro b hb
      rcases List.mem_cons.mp hb with hb2 | hb2
      · subst hb2; exact hpq'
      · exact le_trans (hq b hb2) hpq'

/-- The sort output is descending by score. -/
lemma sortDesc_sorted : ∀ l : List (String × ℚ), (sortDesc l).Pairwise scoreGE
  | [] => by simp [sortDesc]
  | p :: l => insertDesc_sorted p (sortDesc l) (sortDesc_sorted l)

/-- Insertion never reorders the pairs of any fixed score: the inserted
pair lands in front of them exactly when its own score matches. -/
lemma insertDesc_filter (p : String × ℚ) (c : ℚ) :
    ∀ l : List (String × ℚ),
      (insertDesc p l).filter (fun q => decide (q.2 = c)) =
        if p.2 = c then p :: l.filter (fun q => decide (q.2 = c))
        else l.filter (fun q => decide (q.2 = c))
  | [] => by
    by_cases h : p.2 = c <;> simp [insertDesc, h]
  | q :: qs => by
    by_cases hpq : p.2 < q.2
    · have ih := insertDesc_filter p c qs
      simp only [insertDesc, if_pos hpq, List.filter_cons, ih]
      by_cases hpc : p.2 = c
      · have hqc : ¬ (q.2 = c) := by
          intro hq; exact absurd hpq (by rw [hpc, hq]; exact lt_irrefl c)
        simp [hpc, hqc]
      · by_cases hqc : q.2 = c <;> simp [hpc, hqc]
    · simp only [insertDesc, if_neg hpq, List.filter_cons]
      by_cases hpc : p.2 = c <;> simp [hpc]

/-- Stability of the sort: for every score value, the pairs carrying that
score appear in the output in exactly their input order. -/
lemma sortDesc_filter (c : ℚ) :
    ∀ l : List (String × ℚ),
      (sortDesc l).filter (fun q => decide (q.2 = c)) =
        l.filter (fun q => decide (q.2 = c))
  | [] => by simp [sortDesc]
  | p :: l => by
    have hrec : sortDesc (p :: l) = insertDesc p (sortDesc l) := rfl
    rw [hrec, insertDesc_filter p c (sortDesc l), sortDesc_filter c l,
      List.filter_cons]
    by_cases hpc : p.2 = c <;> simp [hpc]

/-! ## Helper lemmas on index-based filtering -/

/-- Filtering positions of `range l.length` by a predicate on the element
there and reading the elements back is the same as filtering the list. -/
lemma range_filter_getD_map (p : α → Bool) (d : α) :
    ∀ l : List α,
      (((List.range l.length).filter (fun i => p (l.getD i d))).map
        (fun i => l.getD i d)) = l.filter p
  | [] => by simp
  | a :: l => by
    have ih := range_filter_getD_map p d l
    simp only [List.length_cons, List.range_succ_eq_map, List.filter_cons,
      List.getD_cons_zero, List.filter_map, List.map_map]
    have hcomp :
        ((fun i => p ((a :: l).getD i d)) ∘ Nat.succ) = fun i => p (l.getD i d) := by
      funext i; simp
    have hcomp2 :
        ((fun i => (a :: l).getD i d) ∘ Nat.succ) = fun i => l.getD i d := by
      funext i; simp
    by_cases hpa : p a
    · simp only [hpa, if_true, List.map_cons, List.getD_cons_zero, List.map_map,
        hcomp, hcomp2, ih]
    · simp only [hpa, Bool.false_eq_true, if_false, List.map_map, hcomp, hcomp2, ih]

/-- The identifiers of the featured songs form a sublist of the pool
identifiers. -/
lemma swf_ids_sublist :
    ∀ songsData : SongPool,
      ((songsWithFeatures songsData).map Prod.fst).Sublist (songsData.map Prod.fst)
  | [] => by simp [songsWithFeatures]
  | (sid, song) :: rest => by
    have ih := swf_ids_sublist rest
    cases haf : song.audio_features with
    | none => simpa [songsWithFeatures, haf] using ih.cons sid
    | some af => simpa [songsWithFeatures, haf] using ih.cons₂ sid

/-- Filtering a projected list has the same length as projecting a
filtered list. -/
lemma length_filter_map_fst (p : α → Bool) (l : List (α × β)) :
    ((l.map Prod.fst).filter p).length = (l.filter (fun q => p q.1)).length := by
  rw [List.filter_map, List.length_map]
  congr 1

/-! ## Helper lemmas on counting label positions -/

/-- Among the first `n` positions, exactly `k` lie below a bound `k ≤ n`. -/
lemma countP_range_lt :
    ∀ n k : Nat, k ≤ n →
      ((List.range n).countP (fun i => decide (i < k))) = k
  | 0, k, h => by
    have : k = 0 := Nat.le_zero.mp h
    simp [this]
  | n + 1, k, h => by
    rw [List.range_succ, List.countP_append]
    by_cases hk : k ≤ n
    · have ih := countP_range_lt n k hk
      have : ¬ n < k := Nat.not_lt.mpr hk
      simp [ih, this]
    · have hkn : k = n + 1 := by omega
      subst hkn
      have hall : (List.range n).countP (fun i => decide (i < n + 1)) = n := by
        have h1 : ∀ a ∈ List.range n, (fun i => decide (i < n + 1)) a = true := by
          intro a ha
          have := List.mem_range.mp ha
          simp
          omega
        rw [List.countP_eq_length.mpr h1, List.length_range]
      simp [hall]

/-- Among the first `n` positions, exactly `n - k` lie at or above a bound
`k ≤ n`. -/
lemma countP_range_not_lt :
    ∀ n k : Nat, k ≤ n →
      ((List.range n).countP (fun i => !decide (i < k))) = n - k
  | 0, k, h => by
    have : k = 0 := Nat.le_zero.mp h
    simp [this]
  | n + 1, k, h => by
    rw [List.range_succ, List.countP_append]
    by_cases hk : k ≤ n
    · have ih := countP_range_not_lt n k hk
      have : ¬ n < k := Nat.not_lt.mpr hk
      simp only [ih, List.countP_cons, List.countP_nil]
      simp [this]
      omega
    · have hkn : k = n + 1 := by omega
      subst hkn
      have hall : (List.range n).countP (fun i => !decide (i < n + 1)) = 0 := by
        refine List.countP_eq_zero.mpr (fun a ha => ?_)
        have := List.mem_range.mp ha
        simp
        omega
      simp [hall]

/-! ## Derived facts about the embedded operations -/

/-- The clamp at lines 132-133 computes the minimum of the requested
sample size and the featured-pool size. -/
lemma syntheticSampleSize_eq_min (songsData : SongPool) (sampleSize : Nat) :
    syntheticSampleSize songsData sampleSize =
      min sampleSize (songsWithFeatures songsData).length := by
  unfold syntheticSampleSize
  split <;> omega

/-- The filtered candidate identifiers are exactly the non-excluded batch
identifiers, in batch order. -/
lemma filteredCandidates_fst (songsData : SongPool) (excl : List String) :
    (filteredCandidates songsData excl).1 =
      (getSongFeaturesBatch songsData).1.filter (fun s => !excl.contains s) := by
  unfold filteredCandidates
  exact range_filter_getD_map (fun s => !excl.contains s) "" _

/-- The batch identifier list is the featured-song identifier list. -/
lemma getSongFeaturesBatch_fst (songsData : SongPool) :
    (getSongFeaturesBatch songsData).1 = (songsWithFeatures songsData).map Prod.fst :=
  rfl

/-- The batch row count equals the featured-song count. -/
lemma getSongFeaturesBatch_snd_length (songsData : SongPool) :
    (getSongFeaturesBatch songsData).2.length = (songsWithFeatures songsData).length := by
  simp [getSongFeaturesBatch]

/-- Scoring returns one score per row. -/
lemma modelScores_length (m : SGDClassifierModel) (sc : ScalerParams)
    (rows : List (List ℚ)) : (modelScores m sc rows).length = rows.length := by
  unfold modelScores
  split <;> simp

/-- Both components of the filtered candidates have the same length. -/
lemma filteredCandidates_length_eq (songsData : SongPool) (excl : List String) :
    (filteredCandidates songsData excl).2.length =
      (filteredCandidates songsData excl).1.length := by
  simp [filteredCandidates]

/-! ## Concrete fixtures used by witness theorems -/

/-- A fitted-scaler example used to build concrete trained states. -/
def exampleScaler : ScalerParams :=
  { mean := AUDIO_FEATURES.map (fun _ => 0), scale := AUDIO_FEATURES.map (fun _ => 1) }

/-- A concrete trained recommender state. -/
def exampleTrainedState : RecState :=
  { model := freshSGDClassifierModel, scaler := some exampleScaler, is_trained := true }

/-- A pool of three featured songs (an odd featured count below the
default sample size). -/
def poolThree : SongPool :=
  [("a", { audio_features := some [("danceability", 1/2), ("energy", 3/4)] }),
   ("b", { audio_features := some [("tempo", 120)] }),
   ("c", { audio_features := some [] })]

/-- A pool with exactly one featured song (clamped synthetic size 1,
single-class labels). -/
def poolOne : SongPool :=
  [("solo", { audio_features := some [("energy", 1/2)] })]

/-- A pool of twenty featured songs. -/
def poolTwenty : SongPool :=
  (List.range 20).map (fun i => (toString i, { audio_features := some [("tempo", (i : ℚ))] }))

/-- A pool mixing one featured and one featureless song. -/
def poolMixed : SongPool :=
  [("hasfeat", { audio_features := some [("energy", 3/4)] }),
   ("nofeat", { audio_features := none })]

/-! ## Claim C2 -/

/-- C2: for every trained model state, feature matrix and label,
`update_model` changes only the classifier: the scaler parameters fit at
initial training are identical before and after the update (the scaler
is never refit), and the trained flag is also unchanged. -/
theorem c2_update_preserves_scaler (st : RecState) (X : List (List ℚ)) (y : Nat)
    (h : st.is_trained = true) :
    (updateModel st X y).1.scaler = st.scaler ∧
    (updateModel st X y).1.is_trained = st.is_trained := by
  unfold updateModel
  rw [h]
  cases hsc : st.scaler <;> simp [hsc, h]

/-- Witness for C2 at a concrete trained state. -/
theorem c2_update_preserves_scaler_witness :
    exampleTrainedState.is_trained = true ∧
    (updateModel exampleTrainedState (prepareFeaturesForML [("energy", 1)]) 1).1.scaler
      = exampleTrainedState.scaler :=
  ⟨rfl, (c2_update_preserves_scaler exampleTrainedState
    (prepareFeaturesForML [("energy", 1)]) 1 rfl).1⟩

/-! ## Claim C3 -/

/-- C3: calling `update_model` on an untrained model is a no-op: the whole
state (classifier, scaler, flag) is unchanged, only a warning is logged,
no exception is raised (the embedding is a total function returning the
unchanged state), and a subsequent `predict_preferences` still takes the
randomized-fallback path. -/
theorem c3_update_untrained_noop (st : RecState) (X : List (List ℚ)) (y : Nat)
    (pool : SongPool) (excl : Option (List String)) (g : RngState)
    (h : st.is_trained = false) :
    (updateModel st X y).1 = st ∧
    (updateModel st X y).2 = ["Model not trained yet, cannot update"] ∧
    predictPreferences (updateModel st X y).1 pool excl g =
      getRandomRecommendations pool excl g := by
  have h1 : (updateModel st X y).1 = st := by
    unfold updateModel
    simp [h]
  refine ⟨h1, ?_, ?_⟩
  · unfold updateModel
    simp [h]
  · rw [h1]
    unfold predictPreferences
    simp [h]

/-- Witness for C3 at the fresh untrained state. -/
theorem c3_update_untrained_noop_witness :
    freshRecState.is_trained = false ∧
    (updateModel freshRecState (prepareFeaturesForML []) 1).1 = freshRecState :=
  ⟨rfl, (c3_update_untrained_noop freshRecState (prepareFeaturesForML []) 1
    poolMixed none 0 rfl).1⟩

/-! ## Claim C4 -/

/-- C4: for every attribute map, feature extraction produces a vector of
length `AUDIO_FEATURES.length` whose position `i` holds the attribute
value for feature name `i` when present and `0.0` otherwise
(`attributes.get(name, 0)`), with no failure mode (the embedding is a
total function); the batch extractor applies the same codec row by
row. -/
theorem c4_feature_codec (af : List (String × ℚ)) (i : Nat)
    (h : i < AUDIO_FEATURES.length) :
    (prepareFeaturesForML af).length = 1 ∧
    ((prepareFeaturesForML af).getD 0 []).length = AUDIO_FEATURES.length ∧
    ((prepareFeaturesForML af).getD 0 []).getD i 0 =
      (af.lookup (AUDIO_FEATURES.getD i "")).getD 0 ∧
    (∀ sd : SongPool, (getSongFeaturesBatch sd).2 =
      (songsWithFeatures sd).map (fun p => (prepareFeaturesForML p.2).getD 0 [])) := by
  refine ⟨rfl, by simp [prepareFeaturesForML], ?_, fun sd => rfl⟩
  simp only [prepareFeaturesForML, List.getD_cons_zero]
  rw [List.getD_eq_getElem?_getD, List.getElem?_map, List.getElem?_eq_getElem h]
  rw [List.getD_eq_getElem?_getD, List.getElem?_eq_getElem h]
  simp

/-- Witness for C4 at a concrete attribute map missing most features. -/
theorem c4_feature_codec_witness :
    1 < AUDIO_FEATURES.length ∧
    ((prepareFeaturesForML [("energy", 3/4)]).getD 0 []).getD 1 0 =
      (([(("energy", (3 : ℚ)/4))].lookup (AUDIO_FEATURES.getD 1 "")).getD 0) :=
  ⟨by decide, (c4_feature_codec [("energy", 3/4)] 1 (by decide)).2.2.1⟩

/-! ## Claim C7 -/

/-- C7: saving the model and loading it back restores the classifier
parameters, the scaler parameters and the trained flag exactly, so the
loaded model scores every candidate pool identically (here: equal
output) to the model before saving. -/
theorem c7_save_load_roundtrip (st : RecState) :
    loadModel (saveModel st) = st ∧
    (loadModel (saveModel st)).model = st.model ∧
    (loadModel (saveModel st)).scaler = st.scaler ∧
    (loadModel (saveModel st)).is_trained = st.is_trained ∧
    ∀ (pool : SongPool) (excl : Option (List String)) (g : RngState),
      predictPreferences (loadModel (saveModel st)) pool excl g =
        predictPreferences st pool excl g := by
  have h : loadModel (saveModel st) = st := rfl
  exact ⟨h, by rw [h], by rw [h], by rw [h], fun pool excl g => by rw [h]⟩

/-! ## Claim C8 -/

/-- C8 counterexample: on an I/O failure of the feedback write, the
exception is caught inside `save_feedback` and nothing is surfaced to
the caller — contradicting the claim that the failure propagates as a
`PersistenceError` (no such exception type exists in the code). -/
theorem c8_counterexample :
    (saveFeedback [] "song1" 1 [] "2026-01-01T00:00:00" WriteOutcome.ioError).raisedToCaller
      = false := rfl

/-- C8 amended: when appending a feedback record fails with an I/O error,
`save_feedback` catches the exception, logs an error line, leaves the
stored records unchanged, and returns normally — no exception of any
kind reaches the caller. -/
theorem c8_amended_silent_log (existing : List FeedbackRecord) (song_id : String)
    (fb : Nat) (af : List (String × ℚ)) (now : String) :
    (saveFeedback existing song_id fb af now WriteOutcome.ioError).raisedToCaller = false ∧
    (saveFeedback existing song_id fb af now WriteOutcome.ioError).records = existing ∧
    (saveFeedback existing song_id fb af now WriteOutcome.ioError).logs =
      ["Error saving feedback"] :=
  ⟨rfl, rfl, rfl⟩

/-! ## Claim C9 -/

/-- C9: with the fixed configured seed and a fixed pool of at least 20
featured songs, two calls of `train_initial_model` on fresh untrained
models with empty feedback — whatever the ambient random-stream states —
produce identical synthetic training sets (same selected songs, same
label assignment) and identical resulting classifier parameters and
states, because the selection reseeds the generator with
`RANDOM_STATE`. -/
theorem c9_training_determinism (songsData : SongPool) (g1 g2 : RngState)
    (_h : 20 ≤ (songsWithFeatures songsData).length) :
    (createSyntheticTrainingData songsData 20 g1).1 =
      (createSyntheticTrainingData songsData 20 g2).1 ∧
    (trainInitialModel freshRecState [] songsData 20 g1).1.model =
      (trainInitialModel freshRecState [] songsData 20 g2).1.model ∧
    (trainInitialModel freshRecState [] songsData 20 g1).1 =
      (trainInitialModel freshRecState [] songsData 20 g2).1 :=
  ⟨rfl, rfl, rfl⟩

/-- Witness for C9 on a concrete 20-song featured pool and two different
ambient stream states. -/
theorem c9_training_determinism_witness :
    20 ≤ (songsWithFeatures poolTwenty).length ∧
    (trainInitialModel freshRecState [] poolTwenty 20 0).1 =
      (trainInitialModel freshRecState [] poolTwenty 20 12345).1 :=
  ⟨by decide, (c9_training_determinism poolTwenty 0 12345 (by decide)).2.2⟩

/-- A list containing two different elements has length at least two. -/
lemma two_le_length_of_mem_ne {l : List α} {a b : α}
    (ha : a ∈ l) (hb : b ∈ l) (hne : a ≠ b) : 2 ≤ l.length := by
  rcases l with _ | ⟨x, _ | ⟨y, t⟩⟩
  · cases ha
  · have h1 := List.mem_singleton.mp ha
    have h2 := List.mem_singleton.mp hb
    exact absurd (h1.trans h2.symm) hne
  · simp only [List.length_cons]
    omega

/-! ## Claim C1 -/

/-- C1 counterexample: on a pool of three featured songs (clamped sample
size 3, an odd number) the synthetic labels are `[1, 0, 0]` — one
positive, two negative — so the labels are not exactly half positive and
half negative as the claim states. -/
theorem c1_counterexample :
    (createSyntheticTrainingData poolThree 20 0).1.2 = [1, 0, 0] ∧
    ¬ (2 * ((createSyntheticTrainingData poolThree 20 0).1.2.count 1) =
        (createSyntheticTrainingData poolThree 20 0).1.2.length) := by
  constructor
  · rfl
  · decide

/-- C1 amended: with no stored feedback, `train_initial_model` builds a
synthetic training set from the candidates carrying an `audio_features`
map: it selects `n = min sample_size (featured count)` distinct songs by
a pseudo-random selection that reseeds the generator with the fixed
configured seed (hence is independent of the ambient stream state), and
assigns labels deterministically by enumeration position — the first
`n / 2` (floor) selected songs are labelled positive and the remaining
`n - n / 2` negative, which is an exactly-half split only when `n` is
even.  Training then succeeds and sets the trained flag whenever the
labels hold both classes (`2 ≤ n`); at `n = 1` the labels are the single
class `[0]`, the classifier fit raises, and the logged `except` path
leaves the classifier and the untrained flag unchanged with the scaler
already fit. -/
theorem c1_amended_synthetic (songsData : SongPool) (sampleSize : Nat) (g : RngState) :
    syntheticSampleSize songsData sampleSize =
      min sampleSize (songsWithFeatures songsData).length ∧
    (createSyntheticTrainingData songsData sampleSize g).1.1.length =
      syntheticSampleSize songsData sampleSize ∧
    (createSyntheticTrainingData songsData sampleSize g).1.2 =
      (List.range (syntheticSampleSize songsData sampleSize)).map
        (fun i => if i < syntheticSampleSize songsData sampleSize / 2 then 1 else 0) ∧
    (createSyntheticTrainingData songsData sampleSize g).1.2.count 1 =
      syntheticSampleSize songsData sampleSize / 2 ∧
    (createSyntheticTrainingData songsData sampleSize g).1.2.count 0 =
      syntheticSampleSize songsData sampleSize -
        syntheticSampleSize songsData sampleSize / 2 ∧
    (syntheticSelection songsData sampleSize).1.Nodup ∧
    (∀ i ∈ (syntheticSelection songsData sampleSize).1,
      i < (songsWithFeatures songsData).length) ∧
    (∀ g2 : RngState, createSyntheticTrainingData songsData sampleSize g =
      createSyntheticTrainingData songsData sampleSize g2) ∧
    (∀ st : RecState, 2 ≤ syntheticSampleSize songsData sampleSize →
      (trainInitialModel st [] songsData sampleSize g).1.scaler =
        some (scalerFit (createSyntheticTrainingData songsData sampleSize g).1.1) ∧
      (trainInitialModel st [] songsData sampleSize g).1.is_trained = true) ∧
    (∀ st : RecState, syntheticSampleSize songsData sampleSize = 1 →
      (trainInitialModel st [] songsData sampleSize g).1.scaler =
        some (scalerFit (createSyntheticTrainingData songsData sampleSize g).1.1) ∧
      (trainInitialModel st [] songsData sampleSize g).1.is_trained = st.is_trained ∧
      (trainInitialModel st [] songsData sampleSize g).1.model = st.model) := by
  have hmin := syntheticSampleSize_eq_min songsData sampleSize
  have hksub : syntheticSampleSize songsData sampleSize ≤
      (songsWithFeatures songsData).length := by
    rw [hmin]
    exact min_le_right _ _
  have hsel : (syntheticSelection songsData sampleSize).1.length =
      syntheticSampleSize songsData sampleSize := by
    unfold syntheticSelection
    exact npChoiceNoReplace_length _ _ _ hksub
  have hlabels : (createSyntheticTrainingData songsData sampleSize g).1.2 =
      (List.range (syntheticSampleSize songsData sampleSize)).map
        (fun i => if i < syntheticSampleSize songsData sampleSize / 2 then 1 else 0) := by
    simp only [createSyntheticTrainingData]
    rw [hsel]
  have hdiv : syntheticSampleSize songsData sampleSize / 2 ≤
      syntheticSampleSize songsData sampleSize := Nat.div_le_self _ _
  have hcount1 : (createSyntheticTrainingData songsData sampleSize g).1.2.count 1 =
      syntheticSampleSize songsData sampleSize / 2 := by
    rw [hlabels]
    rw [List.count, List.countP_map]
    rw [List.countP_congr (q := fun i =>
      decide (i < syntheticSampleSize songsData sampleSize / 2))
      (fun a _ => by by_cases ha : a < syntheticSampleSize songsData sampleSize / 2 <;>
        simp [ha])]
    exact countP_range_lt _ _ hdiv
  have hcount0 : (createSyntheticTrainingData songsData sampleSize g).1.2.count 0 =
      syntheticSampleSize songsData sampleSize -
        syntheticSampleSize songsData sampleSize / 2 := by
    rw [hlabels]
    rw [List.count, List.countP_map]
    rw [List.countP_congr (q := fun i =>
      !decide (i < syntheticSampleSize songsData sampleSize / 2))
      (fun a _ => by by_cases ha : a < syntheticSampleSize songsData sampleSize / 2 <;>
        simp [ha])]
    exact countP_range_not_lt _ _ hdiv
  have hx : (createSyntheticTrainingData songsData sampleSize g).1.1.length =
      syntheticSampleSize songsData sampleSize := by
    unfold createSyntheticTrainingData
    simp [hsel]
  refine ⟨hmin, ?_, hlabels, hcount1, hcount0, ?_, ?_, fun g2 => rfl, ?_, ?_⟩
  · exact hx
  · unfold syntheticSelection
    exact npChoiceNoReplace_nodup _ _ _
  · intro i hi
    unfold syntheticSelection at hi
    exact npChoiceNoReplace_mem _ _ _ _ hi
  · intro st hn2
    have h1mem : 1 ∈ (createSyntheticTrainingData songsData sampleSize g).1.2 := by
      rw [hlabels]
      refine List.mem_map.mpr ⟨0, List.mem_range.mpr (by omega), ?_⟩
      rw [if_pos (by omega)]
    have h0mem : 0 ∈ (createSyntheticTrainingData songsData sampleSize g).1.2 := by
      rw [hlabels]
      refine List.mem_map.mpr ⟨syntheticSampleSize songsData sampleSize - 1,
        List.mem_range.mpr (by omega), ?_⟩
      rw [if_neg (by omega)]
    have hcls : ¬ ((createSyntheticTrainingData songsData sampleSize g).1.2.dedup.length < 2) := by
      have := two_le_length_of_mem_ne (List.mem_dedup.mpr h1mem)
        (List.mem_dedup.mpr h0mem) (by decide)
      omega
    obtain ⟨m2, hm2⟩ : ∃ m2, sgdFit st.model
        ((createSyntheticTrainingData songsData sampleSize g).1.1.map
          (scalerTransform (scalerFit (createSyntheticTrainingData songsData sampleSize g).1.1)))
        (createSyntheticTrainingData songsData sampleSize g).1.2 = some m2 := by
      unfold sgdFit
      rw [if_neg hcls]
      exact ⟨_, rfl⟩
    constructor
    · unfold trainInitialModel
      simp only [prepareTrainingData, List.isEmpty_nil, if_true, List.length_nil]
      rw [if_pos (by rw [hx]; omega), hm2]
    · unfold trainInitialModel
      simp only [prepareTrainingData, List.isEmpty_nil, if_true, List.length_nil]
      rw [if_pos (by rw [hx]; omega), hm2]
  · intro st hn1
    have hlab1 : (createSyntheticTrainingData songsData sampleSize g).1.2 = [0] := by
      rw [hlabels, hn1]
      rfl
    have hnone : sgdFit st.model
        ((createSyntheticTrainingData songsData sampleSize g).1.1.map
          (scalerTransform (scalerFit (createSyntheticTrainingData songsData sampleSize g).1.1)))
        (createSyntheticTrainingData songsData sampleSize g).1.2 = none := by
      unfold sgdFit
      rw [if_pos (by rw [hlab1]; decide)]
    refine ⟨?_, ?_, ?_⟩ <;>
    · unfold trainInitialModel
      simp only [prepareTrainingData, List.isEmpty_nil, if_true, List.length_nil]
      rw [if_pos (by rw [hx]; omega), hnone]

/-- Witness for C1: on the three-song pool (both classes present)
training on empty feedback produces a trained state, while on the
one-song pool the single-class fit failure leaves the fresh model
untrained. -/
theorem c1_amended_synthetic_witness :
    2 ≤ syntheticSampleSize poolThree 20 ∧
    (trainInitialModel freshRecState [] poolThree 20 0).1.is_trained = true ∧
    syntheticSampleSize poolOne 20 = 1 ∧
    (trainInitialModel freshRecState [] poolOne 20 0).1.is_trained = false :=
  ⟨by decide,
    ((c1_amended_synthetic poolThree 20 0).2.2.2.2.2.2.2.2.1 freshRecState (by decide)).2,
    by decide,
    ((c1_amended_synthetic poolOne 20 0).2.2.2.2.2.2.2.2.2 freshRecState (by decide)).2.1⟩

/-! ## Branch-reduction lemmas for `predictPreferences` -/

/-- On an untrained state, prediction is exactly the random fallback
(line 173-175). -/
lemma predictPreferences_untrained (st : RecState) (pool : SongPool)
    (excludeIds : Option (List String)) (g : RngState)
    (h : st.is_trained = false) :
    predictPreferences st pool excludeIds g =
      getRandomRecommendations pool excludeIds g := by
  simp only [predictPreferences, h, if_true]

/-- On a trained state with a fitted scaler and non-empty candidates,
prediction is exactly the stable descending sort of the scored filtered
candidates (lines 181-211). -/
lemma predictPreferences_trained_eq (st : RecState) (pool : SongPool)
    (excludeIds : Option (List String)) (g : RngState) (sc : ScalerParams)
    (h1 : st.is_trained = true) (h2 : st.scaler = some sc)
    (hf : (getSongFeaturesBatch pool).2.length ≠ 0)
    (hc : (filteredCandidates pool (excludeIds.getD [])).1.length ≠ 0) :
    predictPreferences st pool excludeIds g =
      (sortDesc ((filteredCandidates pool (excludeIds.getD [])).1.zip
        (modelScores st.model sc (filteredCandidates pool (excludeIds.getD [])).2)), g) := by
  simp only [predictPreferences, h1, h2]
  rw [if_neg (by simp), if_neg hf, if_neg hc]

/-- On a trained state whose scaler was never fitted, the raised
`NotFittedError` is caught and prediction falls back to the random path
(lines 213-215). -/
lemma predictPreferences_trained_noscaler (st : RecState) (pool : SongPool)
    (excludeIds : Option (List String)) (g : RngState)
    (h1 : st.is_trained = true) (h2 : st.scaler = none)
    (hf : (getSongFeaturesBatch pool).2.length ≠ 0)
    (hc : (filteredCandidates pool (excludeIds.getD [])).1.length ≠ 0) :
    predictPreferences st pool excludeIds g =
      getRandomRecommendations pool excludeIds g := by
  simp only [predictPreferences, h1, h2]
  rw [if_neg (by simp), if_neg hf, if_neg hc]

/-- Membership in a contains-based filter implies non-membership in the
exclusion list. -/
lemma not_excluded_of_mem_filter {excl : List String} {sid : String}
    {l : List String} (h : sid ∈ l.filter (fun s => !excl.contains s)) :
    sid ∉ excl := by
  have hb := (List.mem_filter.mp h).2
  intro hmem
  simp at hb
  exact hb hmem

/-- Every identifier of the random fallback output avoids the exclusion
list, and the output size is bounded by 10 and by the non-excluded pool
size. -/
lemma getRandomRecommendations_spec (pool : SongPool) (excl : List String)
    (g : RngState) :
    (∀ p ∈ (getRandomRecommendations pool (some excl) g).1, p.1 ∉ excl) ∧
    (getRandomRecommendations pool (some excl) g).1.length ≤ 10 ∧
    (getRandomRecommendations pool (some excl) g).1.length ≤
      (pool.filter (fun q => !excl.contains q.1)).length := by
  have hids : ((getRandomRecommendations pool (some excl) g).1.map Prod.fst) =
      ((npShuffle g ((pool.map Prod.fst).filter (fun sid => !excl.contains sid))).1.take 10) := by
    simp only [getRandomRecommendations, Option.getD_some]
    exact randScores_map_fst _ _
  have hlen : (getRandomRecommendations pool (some excl) g).1.length =
      (((npShuffle g ((pool.map Prod.fst).filter (fun sid => !excl.contains sid))).1.take 10)).length := by
    rw [← hids, List.length_map]
  have hshuf := npShuffle_perm g ((pool.map Prod.fst).filter (fun sid => !excl.contains sid))
  refine ⟨?_, ?_, ?_⟩
  · intro p hp
    have h1 : p.1 ∈ ((getRandomRecommendations pool (some excl) g).1.map Prod.fst) :=
      List.mem_map_of_mem Prod.fst hp
    rw [hids] at h1
    have h2 : p.1 ∈ (npShuffle g ((pool.map Prod.fst).filter (fun sid => !excl.contains sid))).1 :=
      (List.take_sublist 10 _).mem h1
    have h3 : p.1 ∈ (pool.map Prod.fst).filter (fun sid => !excl.contains sid) :=
      hshuf.mem_iff.mp h2
    exact not_excluded_of_mem_filter h3
  · rw [hlen]
    exact le_trans (List.length_take_le 10 _) (le_refl 10)
  · rw [hlen]
    calc (((npShuffle g ((pool.map Prod.fst).filter (fun sid => !excl.contains sid))).1.take 10)).length
        ≤ (npShuffle g ((pool.map Prod.fst).filter (fun sid => !excl.contains sid))).1.length :=
          (List.take_sublist 10 _).length_le
      _ = ((pool.map Prod.fst).filter (fun sid => !excl.contains sid)).length :=
          hshuf.length_eq
      _ = (pool.filter (fun q => !excl.contains q.1)).length :=
          length_filter_map_fst _ pool

/-- The zipped candidate pairs are as numerous as the filtered
identifiers. -/
lemma filteredCandidates_zip_length (pool : SongPool) (excl : List String)
    (m : SGDClassifierModel) (sc : ScalerParams) :
    ((filteredCandidates pool excl).1.zip
      (modelScores m sc (filteredCandidates pool excl).2)).length =
      (filteredCandidates pool excl).1.length := by
  rw [List.length_zip, modelScores_length, filteredCandidates_length_eq, Nat.min_self]

/-- The filtered candidate count never exceeds the non-excluded pool
count. -/
lemma filteredCandidates_length_le (pool : SongPool) (excl : List String) :
    (filteredCandidates pool excl).1.length ≤
      (pool.filter (fun q => !excl.contains q.1)).length := by
  rw [filteredCandidates_fst, getSongFeaturesBatch_fst]
  calc (((songsWithFeatures pool).map Prod.fst).filter (fun s => !excl.contains s)).length
      ≤ ((pool.map Prod.fst).filter (fun s => !excl.contains s)).length :=
        ((swf_ids_sublist pool).filter _).length_le
    _ = (pool.filter (fun q => !excl.contains q.1)).length :=
        length_filter_map_fst _ pool

/-! ## Claim C5 -/

/-- C5: on every state, pool and exclusion list, `predict_preferences`
returns no excluded identifier and at most as many entries as the pool
has non-excluded songs; on the untrained fallback path the result is
additionally capped at 10 entries. -/
theorem c5_exclusion_and_bounds (st : RecState) (pool : SongPool)
    (excl : List String) (g : RngState) :
    (∀ p ∈ (predictPreferences st pool (some excl) g).1, p.1 ∉ excl) ∧
    (predictPreferences st pool (some excl) g).1.length ≤
      (pool.filter (fun q => !excl.contains q.1)).length ∧
    (st.is_trained = false →
      (predictPreferences st pool (some excl) g).1.length ≤ 10) := by
  by_cases h1 : st.is_trained = false
  · rw [predictPreferences_untrained st pool (some excl) g h1]
    have hs := getRandomRecommendations_spec pool excl g
    exact ⟨hs.1, hs.2.2, fun _ => hs.2.1⟩
  · have h1' : st.is_trained = true := by
      cases hb : st.is_trained
      · exact absurd hb h1
      · rfl
    refine ?_
    by_cases hf : (getSongFeaturesBatch pool).2.length = 0
    · have hout : predictPreferences st pool (some excl) g = ([], g) := by
        simp only [predictPreferences, h1']
        rw [if_neg (by simp), if_pos hf]
      rw [hout]
      exact ⟨fun p hp => absurd hp (by simp), by simp, fun hfalse => by simp⟩
    · by_cases hc : (filteredCandidates pool ((some excl).getD [])).1.length = 0
      · have hout : predictPreferences st pool (some excl) g = ([], g) := by
          simp only [predictPreferences, h1']
          rw [if_neg (by simp), if_neg hf, if_pos hc]
        rw [hout]
        exact ⟨fun p hp => absurd hp (by simp), by simp, fun hfalse => by simp⟩
      · cases hsc : st.scaler with
        | none =>
          rw [predictPreferences_trained_noscaler st pool (some excl) g h1' hsc hf hc]
          have hs := getRandomRecommendations_spec pool excl g
          exact ⟨hs.1, hs.2.2, fun hfalse => by rw [hfalse] at h1'; cases h1'⟩
        | some sc =>
          rw [predictPreferences_trained_eq st pool (some excl) g sc h1' hsc hf hc]
          have hperm := sortDesc_perm ((filteredCandidates pool excl).1.zip
            (modelScores st.model sc (filteredCandidates pool excl).2))
          refine ⟨?_, ?_, fun hfalse => by rw [hfalse] at h1'; cases h1'⟩
          · intro p hp
            have hp2 : p ∈ (filteredCandidates pool excl).1.zip
                (modelScores st.model sc (filteredCandidates pool excl).2) :=
              hperm.mem_iff.mp (by simpa using hp)
            obtain ⟨a, b⟩ := p
            have ha : a ∈ (filteredCandidates pool excl).1 := (List.of_mem_zip hp2).1
            rw [filteredCandidates_fst] at ha
            exact not_excluded_of_mem_filter ha
          · have hlen : (sortDesc ((filteredCandidates pool excl).1.zip
                (modelScores st.model sc (filteredCandidates pool excl).2))).length =
                (filteredCandidates pool excl).1.length := by
              rw [hperm.length_eq, filteredCandidates_zip_length]
            simpa [hlen] using filteredCandidates_length_le pool excl

/-- Witness for C5: an untrained concrete pool query stays within the cap
and the non-excluded count. -/
theorem c5_exclusion_and_bounds_witness :
    freshRecState.is_trained = false ∧
    (predictPreferences freshRecState poolMixed (some ["hasfeat"]) 7).1.length ≤ 10 :=
  ⟨rfl, (c5_exclusion_and_bounds freshRecState poolMixed ["hasfeat"] 7).2.2 rfl⟩

/-! ## Claim C6 -/

/-- C6: when the model is trained (with a fitted scaler) and at least one
non-excluded song carries a feature vector, `predict_preferences`
returns exactly the stable descending sort of the scored candidate
pairs: the output is a permutation of the candidate pairs sorted
descending by score, pairs of equal score keep the original iteration
order of the candidate pool, and the score of each candidate row is the
positive-class probability when the classifier exposes probabilities and
the raw decision margin otherwise. -/
theorem c6_trained_ranking (st : RecState) (pool : SongPool) (excl : List String)
    (g : RngState) (sc : ScalerParams)
    (h1 : st.is_trained = true) (h2 : st.scaler = some sc)
    (h3 : (songsWithFeatures pool).filter (fun p => !excl.contains p.1) ≠ []) :
    (predictPreferences st pool (some excl) g).1 =
      sortDesc ((filteredCandidates pool excl).1.zip
        (modelScores st.model sc (filteredCandidates pool excl).2)) ∧
    (predictPreferences st pool (some excl) g).1.Pairwise scoreGE ∧
    List.Perm (predictPreferences st pool (some excl) g).1
      ((filteredCandidates pool excl).1.zip
        (modelScores st.model sc (filteredCandidates pool excl).2)) ∧
    (∀ c : ℚ, (predictPreferences st pool (some excl) g).1.filter
        (fun q => decide (q.2 = c)) =
      ((filteredCandidates pool excl).1.zip
        (modelScores st.model sc (filteredCandidates pool excl).2)).filter
        (fun q => decide (q.2 = c))) ∧
    (hasPredictProbaAttr st.model = true →
      modelScores st.model sc (filteredCandidates pool excl).2 =
        (filteredCandidates pool excl).2.map
          (fun row => predictProbaPos st.model (scalerTransform sc row))) ∧
    (hasPredictProbaAttr st.model = false →
      modelScores st.model sc (filteredCandidates pool excl).2 =
        (filteredCandidates pool excl).2.map
          (fun row => decisionFunction st.model (scalerTransform sc row))) := by
  have hswf : songsWithFeatures pool ≠ [] := by
    intro hnil
    exact h3 (by rw [hnil]; rfl)
  have hf : (getSongFeaturesBatch pool).2.length ≠ 0 := by
    rw [getSongFeaturesBatch_snd_length]
    intro hz
    exact hswf (List.length_eq_zero.mp hz)
  have hc : (filteredCandidates pool ((some excl).getD [])).1.length ≠ 0 := by
    simp only [Option.getD_some]
    rw [filteredCandidates_fst, getSongFeaturesBatch_fst, List.filter_map]
    intro hz
    rw [List.length_map] at hz
    exact h3 (List.length_eq_zero.mp hz)
  have hout := predictPreferences_trained_eq st pool (some excl) g sc h1 h2 hf hc
  simp only [Option.getD_some] at hout
  rw [hout]
  refine ⟨rfl, sortDesc_sorted _, sortDesc_perm _, fun c => sortDesc_filter c _,
    fun hyes => ?_, fun hno => ?_⟩
  · unfold modelScores
    rw [if_pos hyes]
    simp [List.map_map, Function.comp]
  · unfold modelScores
    rw [if_neg (by rw [hno]; simp)]
    simp [List.map_map, Function.comp]

/-- Witness for C6 on a concrete trained state and a pool with one
featured candidate. -/
theorem c6_trained_ranking_witness :
    exampleTrainedState.is_trained = true ∧
    exampleTrainedState.scaler = some exampleScaler ∧
    (songsWithFeatures poolMixed).filter
      (fun p => !([] : List String).contains p.1) ≠ [] ∧
    (predictPreferences exampleTrainedState poolMixed (some []) 0).1.Pairwise scoreGE :=
  ⟨rfl, rfl, by decide,
    (c6_trained_ranking exampleTrainedState poolMixed [] 0 exampleScaler
      rfl rfl (by decide)).2.1⟩

/-! ## Claim C10 -/

/-- C10: the randomized fallback draws from every non-excluded song
identifier while the trained path restricts itself to songs carrying an
`audio_features` map: on the concrete mixed pool, the featureless song
appears in the untrained fallback output, yet for every trained state
with a fitted scaler it never appears in the trained output. -/
theorem c10_featureless_only_in_fallback (st : RecState) (sc : ScalerParams)
    (h1 : st.is_trained = true) (h2 : st.scaler = some sc) :
    ("nofeat", ({ audio_features := none } : Song)) ∈ poolMixed ∧
    "nofeat" ∈ ((predictPreferences freshRecState poolMixed none 0).1.map Prod.fst) ∧
    "nofeat" ∉ ((predictPreferences st poolMixed none 0).1.map Prod.fst) := by
  refine ⟨by decide, by decide, ?_⟩
  have hf : (getSongFeaturesBatch poolMixed).2.length ≠ 0 := by decide
  have hc : (filteredCandidates poolMixed ((none : Option (List String)).getD [])).1.length ≠ 0 := by
    decide
  have hout := predictPreferences_trained_eq st poolMixed none 0 sc h1 h2 hf hc
  rw [hout]
  intro hmem
  have hperm := (sortDesc_perm ((filteredCandidates poolMixed ((none : Option (List String)).getD [])).1.zip
    (modelScores st.model sc (filteredCandidates poolMixed ((none : Option (List String)).getD [])).2))).map Prod.fst
  have hmem2 : "nofeat" ∈ ((filteredCandidates poolMixed ((none : Option (List String)).getD [])).1.zip
      (modelScores st.model sc (filteredCandidates poolMixed ((none : Option (List String)).getD [])).2)).map Prod.fst :=
    hperm.mem_iff.mp (by simpa using hmem)
  obtain ⟨q, hq, hq1⟩ := List.mem_map.mp hmem2
  obtain ⟨a, b⟩ := q
  have ha : a ∈ (filteredCandidates poolMixed ((none : Option (List String)).getD [])).1 :=
    (List.of_mem_zip hq).1
  rw [show a = "nofeat" from hq1] at ha
  revert ha
  decide

/-- Witness for C10 at a concrete trained state. -/
theorem c10_featureless_only_in_fallback_witness :
    exampleTrainedState.is_trained = true ∧
    "nofeat" ∉ ((predictPreferences exampleTrainedState poolMixed none 0).1.map Prod.fst) :=
  ⟨rfl, (c10_featureless_only_in_fallback exampleTrainedState exampleScaler rfl rfl).2.2⟩
